import Mathlib

/-!
Shallow embedding of the ledger & payment-request engine of this repository
(`src/db.py`, redemption flow of `src/bot.py`).

Modelling conventions:
* money (`Numeric(18,2)` / Python floats) is modelled as `Int`;
* timestamps (`datetime`) are modelled as `Nat` ticks; `expires_at >= now`
  in SQL becomes `now ≤ expires_at`;
* the database is a `DB` record of three tables (lists of rows); the ORM
  identity map (one Python object per row inside a session) is modelled by
  keying every mutation on the row's primary key and re-reading through the
  table, so aliasing (e.g. a self-transfer) behaves as in the source;
* a Python call that would raise because a row does not exist
  (`session.refresh` on a missing user) is modelled by `Option`;
* module-level `settings` values (`super_admin_id`, `qr_expire_minutes`)
  are passed as explicit parameters.
-/

namespace Cmp1

/-- Row of table `users` (`class User`, src/db.py). -/
structure UserRec where
  id : Nat
  telegram_id : Int
  username : Option String
  game_nickname : Option String
  cmap_id : Option String
  is_registered : Bool
  is_deleted : Bool
  is_admin : Bool
  balance : Int
deriving DecidableEq, Repr

/-- Row of table `transactions` (`class Transaction`, src/db.py). -/
structure TransactionRec where
  from_user_id : Option Nat
  to_user_id : Option Nat
  amount : Int
  type : String
  description : Option String
deriving DecidableEq, Repr

/-- Row of table `payment_requests` (`class PaymentRequest`, src/db.py). -/
structure PaymentRequestRec where
  id : Nat
  token : String
  requester_id : Nat
  amount : Option Int
  created_at : Nat
  expires_at : Nat
  used : Bool
deriving DecidableEq, Repr

/-- The whole datastore. -/
structure DB where
  users : List UserRec
  transactions : List TransactionRec
  payment_requests : List PaymentRequestRec
deriving DecidableEq, Repr

/-- Select a user row by primary key. -/
def findUser (db : DB) (uid : Nat) : Option UserRec :=
  db.users.find? fun u => decide (u.id = uid)

/-- `get_user_by_telegram_id` (src/db.py): select a user by `telegram_id`. -/
def get_user_by_telegram_id (db : DB) (tid : Int) : Option UserRec :=
  db.users.find? fun u => decide (u.telegram_id = tid)

/-- Update of one user row's balance, keyed by primary key. -/
def updBal (uid : Nat) (b : Int) (u : UserRec) : UserRec :=
  if u.id = uid then { u with balance := b } else u

/-- Write `b` into the balance column of the row with key `uid`. -/
def setBalance (db : DB) (uid : Nat) (b : Int) : DB :=
  { db with users := db.users.map (updBal uid b) }

/-- The stored balance of row `uid` (0 if the row is absent); models
re-reading `user.balance` through the session. -/
def balanceOf (db : DB) (uid : Nat) : Int :=
  ((findUser db uid).map UserRec.balance).getD 0

/-- Auto-increment key for `users`. -/
def nextUserId (db : DB) : Nat :=
  (db.users.map UserRec.id).foldr max 0 + 1

/-- Auto-increment key for `payment_requests`. -/
def nextPrId (db : DB) : Nat :=
  (db.payment_requests.map PaymentRequestRec.id).foldr max 0 + 1

/-- `get_or_create_user` (src/db.py): return the user with this
`telegram_id`, refreshing its `username` when a new non-null one differs;
otherwise create a fresh unregistered user with balance 0, admin iff the
id matches the configured super-admin id. -/
def get_or_create_user (superAdminId : Option Int) (db : DB)
    (telegramId : Int) (username : Option String) : UserRec × DB :=
  match get_user_by_telegram_id db telegramId with
  | some u =>
    match username with
    | some un =>
      if u.username ≠ some un then
        let u' := { u with username := some un }
        (u', { db with users := db.users.map fun v =>
                 if v.telegram_id = telegramId then { v with username := some un } else v })
      else (u, db)
    | none => (u, db)
  | none =>
    let u : UserRec :=
      { id := nextUserId db
        telegram_id := telegramId
        username := username
        game_nickname := none
        cmap_id := none
        is_registered := false
        is_deleted := false
        is_admin := decide (superAdminId = some telegramId)
        balance := 0 }
    (u, { db with users := db.users ++ [u] })

/-- `create_payment_request` (src/db.py): insert a fresh request with
`expires_at = now + window`, `used = false`. -/
def create_payment_request (db : DB) (requesterId : Nat) (token : String)
    (amount : Option Int) (now window : Nat) : PaymentRequestRec × DB :=
  let pr : PaymentRequestRec :=
    { id := nextPrId db
      token := token
      requester_id := requesterId
      amount := amount
      created_at := now
      expires_at := now + window
      used := false }
  (pr, { db with payment_requests := db.payment_requests ++ [pr] })

/-- `get_valid_payment_request` (src/db.py): select the request with this
token subject to `expires_at >= now` and `used` being false. -/
def get_valid_payment_request (db : DB) (token : String) (now : Nat) :
    Option PaymentRequestRec :=
  db.payment_requests.find? fun pr =>
    decide (pr.token = token ∧ now ≤ pr.expires_at ∧ pr.used = false)

/-- `mark_payment_request_used` (src/db.py): set `used := true` on the row
with key `prId`. -/
def mark_payment_request_used (db : DB) (prId : Nat) : DB :=
  { db with payment_requests := db.payment_requests.map fun q =>
      if q.id = prId then { q with used := true } else q }

/-- `transfer` (src/db.py): after re-reading both rows, fail (returning
`false` and an untouched store) when the sender's balance is below the
amount; otherwise debit the sender, credit the recipient (re-reading the
recipient's balance after the debit, as the shared ORM object does), and
append one transaction row.  `none` models the exception raised when a row
is missing. -/
def transfer (db : DB) (fromId toId : Nat) (amount : Int)
    (txType : String) (descr : Option String) : Option (Bool × DB) :=
  match findUser db fromId, findUser db toId with
  | some fu, some _ =>
    if fu.balance < amount then some (false, db)
    else
      let db1 := setBalance db fromId (fu.balance - amount)
      let db2 := setBalance db1 toId (balanceOf db1 toId + amount)
      some (true,
        { db2 with transactions := db2.transactions ++
            [{ from_user_id := some fromId
               to_user_id := some toId
               amount := amount
               type := txType
               description := descr }] })
  | _, _ => none

/-- The stored note of an admin adjustment: the Python
`description or f"admin:{admin.telegram_id}"` (an empty string is falsy and
also falls back to the default). -/
def adminNote (admin : UserRec) (descr : Option String) : String :=
  match descr with
  | some d => if d = "" then "admin:" ++ toString admin.telegram_id else d
  | none => "admin:" ++ toString admin.telegram_id

/-- `admin_adjust_balance` (src/db.py): unconditionally credit or debit the
target's balance and append one `admin_credit`/`admin_debit` transaction
row with `from_user_id = None`, `to_user_id = target.id`, and the admin's
identity folded into the description when none is supplied. -/
def admin_adjust_balance (db : DB) (admin : UserRec) (targetId : Nat)
    (amount : Int) (isCredit : Bool) (descr : Option String) : Option DB :=
  match findUser db targetId with
  | some t =>
    let newBal := if isCredit then t.balance + amount else t.balance - amount
    let txType := if isCredit then "admin_credit" else "admin_debit"
    some { setBalance db targetId newBal with
           transactions := db.transactions ++
             [{ from_user_id := none
                to_user_id := some targetId
                amount := amount
                type := txType
                description := some (adminNote admin descr) }] }
  | none => none

/-- Outcome of the `pay_confirm` redemption flow (src/bot.py). -/
inductive RedeemOutcome where
  | invalid
  | noRecipient
  | insufficientFunds
  | success (amount : Int)
  | internalError
deriving DecidableEq, Repr

/-- Validation phase of `on_pay_confirm` (src/bot.py lines 447–453): load
the request through `get_valid_payment_request` and require a fixed
amount. -/
def redeemValidate (db : DB) (token : String) (now : Nat) :
    Option (PaymentRequestRec × Int) :=
  match get_valid_payment_request db token now with
  | some pr =>
    match pr.amount with
    | some a => some (pr, a)
    | none => none
  | none => none

/-- Commit phase of `on_pay_confirm` (src/bot.py lines 454–468): resolve
sender and recipient, run the transfer, and mark the request used only
when the transfer reported success. -/
def redeemCommit (superAdminId : Option Int) (db : DB)
    (pr : PaymentRequestRec) (amt : Int) (payerTg : Int)
    (payerUname : Option String) : RedeemOutcome × DB :=
  let s := get_or_create_user superAdminId db payerTg payerUname
  match findUser s.2 pr.requester_id with
  | none => (.noRecipient, s.2)
  | some recipient =>
    match transfer s.2 s.1.id recipient.id amt "transfer" none with
    | some (true, db2) => (.success amt, mark_payment_request_used db2 pr.id)
    | some (false, db2) => (.insufficientFunds, db2)
    | none => (.internalError, s.2)

/-- `on_pay_confirm` (src/bot.py lines 439–495), restricted to its
store-affecting core: validate, then commit. -/
def on_pay_confirm (superAdminId : Option Int) (db : DB) (payerTg : Int)
    (payerUname : Option String) (token : String) (now : Nat) :
    RedeemOutcome × DB :=
  match redeemValidate db token now with
  | none => (.invalid, db)
  | some (pr, amt) => redeemCommit superAdminId db pr amt payerTg payerUname

/-- Sum of all stored balances. -/
def totalBalance (db : DB) : Int :=
  (db.users.map UserRec.balance).sum

/-- Fold a list of `(sender, recipient, amount)` instructions through
`transfer`, keeping the store unchanged on any failure. -/
def applyTransfers (db : DB) (ts : List (Nat × Nat × Int)) : DB :=
  ts.foldl (fun d t =>
    match transfer d t.1 t.2.1 t.2.2 "transfer" none with
    | some (_, d') => d'
    | none => d) db

/-- A user row with its `username` column blanked, for frame statements. -/
def stripUsername (u : UserRec) : UserRec :=
  { u with username := none }

/-! ### Concrete fixtures for witnesses and counterexamples -/

/-- A registered non-admin user with balance 100. -/
def userA : UserRec :=
  { id := 1, telegram_id := 100, username := some "alice", game_nickname := none,
    cmap_id := none, is_registered := true, is_deleted := false,
    is_admin := false, balance := 100 }

/-- A registered non-admin user with balance 10. -/
def userB : UserRec :=
  { id := 2, telegram_id := 200, username := some "bob", game_nickname := none,
    cmap_id := none, is_registered := true, is_deleted := false,
    is_admin := false, balance := 10 }

/-- A registered non-admin user with balance 50. -/
def userC : UserRec :=
  { id := 3, telegram_id := 300, username := some "carl", game_nickname := none,
    cmap_id := none, is_registered := true, is_deleted := false,
    is_admin := false, balance := 50 }

/-- A registered non-admin user with balance 80. -/
def userD : UserRec :=
  { id := 4, telegram_id := 400, username := some "dina", game_nickname := none,
    cmap_id := none, is_registered := true, is_deleted := false,
    is_admin := false, balance := 80 }

/-- A fixed-amount (30) payment request by `userA`, expiring at tick 900. -/
def reqT : PaymentRequestRec :=
  { id := 1, token := "T", requester_id := 1, amount := some 30,
    created_at := 0, expires_at := 900, used := false }

/-- A store holding three users and the open request. -/
def baseDb : DB :=
  { users := [userA, userB, userC], transactions := [], payment_requests := [reqT] }

/-- A request whose expiry tick is exactly 100, for the C4 boundary case. -/
def reqBoundary : PaymentRequestRec :=
  { id := 1, token := "t", requester_id := 1, amount := some 5,
    created_at := 0, expires_at := 100, used := false }

/-- A store holding only `reqBoundary`. -/
def dbBoundary : DB :=
  { users := [userA], transactions := [], payment_requests := [reqBoundary] }

/-- A store with the requester and two payers who can both cover the fixed
amount of `reqT`, for the redemption race. -/
def dbRace : DB :=
  { users := [userA, userC, userD], transactions := [], payment_requests := [reqT] }

/-- A non-admin caller running an admin debit of 5 against `userA`. -/
def c6_result : Option DB := admin_adjust_balance baseDb userB 1 5 false none

/-- An admin debit of 5 against `userA`, to inspect the appended row. -/
def c7_result : Option DB := admin_adjust_balance baseDb userC 1 5 false none

/-- A transfer with the negative amount `-1` from `userB` to `userC`. -/
def c8_result : Option (Bool × DB) := transfer baseDb 2 3 (-1) "transfer" none

/-! ### Helper lemmas about the store operations -/

theorem findUser_some {db : DB} {uid : Nat} {u : UserRec}
    (h : findUser db uid = some u) : u.id = uid ∧ u ∈ db.users := by
  refine ⟨?_, List.mem_of_find?_eq_some h⟩
  have := List.find?_some h
  simpa using this

theorem balanceOf_eq {db : DB} {uid : Nat} {u : UserRec}
    (h : findUser db uid = some u) : balanceOf db uid = u.balance := by
  unfold balanceOf
  rw [h]
  rfl

theorem updBal_id (uid : Nat) (b : Int) (u : UserRec) :
    (updBal uid b u).id = u.id := by
  unfold updBal
  split <;> rfl

theorem findUser_setBalance (db : DB) (uid : Nat) (b : Int) (vid : Nat) :
    findUser (setBalance db uid b) vid = (findUser db vid).map (updBal uid b) := by
  unfold findUser setBalance
  rw [List.find?_map]
  have hp : (fun u : UserRec => decide (u.id = vid)) ∘ updBal uid b
      = fun u : UserRec => decide (u.id = vid) := by
    funext v
    show decide ((updBal uid b v).id = vid) = decide (v.id = vid)
    rw [updBal_id]
  rw [hp]

theorem setBalance_ids (db : DB) (uid : Nat) (b : Int) :
    (setBalance db uid b).users.map UserRec.id = db.users.map UserRec.id := by
  unfold setBalance
  rw [List.map_map]
  exact List.map_congr_left fun v _ => updBal_id uid b v

theorem sum_map_updBal (uid : Nat) (b : Int) :
    ∀ (l : List UserRec), (l.map UserRec.id).Nodup →
      ∀ u, l.find? (fun v => decide (v.id = uid)) = some u →
        ((l.map (updBal uid b)).map UserRec.balance).sum
          = (l.map UserRec.balance).sum - u.balance + b := by
  intro l
  induction l with
  | nil =>
    intro _ u h
    simp at h
  | cons v l ih =>
    intro hN u h
    have hN' : (l.map UserRec.id).Nodup := (List.nodup_cons.mp (by simpa using hN)).2
    have hvnot : v.id ∉ l.map UserRec.id := (List.nodup_cons.mp (by simpa using hN)).1
    by_cases hv : v.id = uid
    · rw [List.find?_cons_of_pos _ (by simpa using hv)] at h
      have hu : v = u := by simpa using h
      have htail : l.map (updBal uid b) = l := by
        have : ∀ w ∈ l, updBal uid b w = w := by
          intro w hw
          unfold updBal
          rw [if_neg]
          intro hwid
          exact hvnot (hv ▸ hwid ▸ List.mem_map_of_mem UserRec.id hw)
        calc l.map (updBal uid b) = l.map id := List.map_congr_left this
          _ = l := List.map_id l
      subst hu
      simp only [List.map_cons, List.sum_cons, htail]
      have hvb : (updBal uid b v).balance = b := by
        unfold updBal
        rw [if_pos hv]
      rw [hvb]
      omega
    · rw [List.find?_cons_of_neg _ (by simpa using hv)] at h
      have hvv : updBal uid b v = v := by
        unfold updBal
        rw [if_neg hv]
      simp only [List.map_cons, List.sum_cons, hvv]
      rw [ih hN' u h]
      omega

theorem totalBalance_setBalance {db : DB} {uid : Nat} {u : UserRec} (b : Int)
    (hN : (db.users.map UserRec.id).Nodup) (h : findUser db uid = some u) :
    totalBalance (setBalance db uid b) = totalBalance db - u.balance + b :=
  sum_map_updBal uid b db.users hN u h

theorem transfer_inv {db db' : DB} {f t : Nat} {amt : Int} {ty : String}
    {d : Option String} {ok : Bool}
    (h : transfer db f t amt ty d = some (ok, db')) :
    ∃ fu tu, findUser db f = some fu ∧ findUser db t = some tu ∧
      ((ok = false ∧ db' = db ∧ fu.balance < amt) ∨
       (ok = true ∧ ¬ fu.balance < amt ∧
        db'.users = (setBalance (setBalance db f (fu.balance - amt)) t
          (balanceOf (setBalance db f (fu.balance - amt)) t + amt)).users ∧
        db'.transactions = db.transactions ++
          [⟨some f, some t, amt, ty, d⟩] ∧
        db'.payment_requests = db.payment_requests)) := by
  unfold transfer at h
  rcases hf : findUser db f with _ | fu <;> rw [hf] at h <;> dsimp only at h
  · exact absurd h (by simp)
  rcases ht : findUser db t with _ | tu <;> rw [ht] at h <;> dsimp only at h
  · exact absurd h (by simp)
  refine ⟨fu, tu, rfl, rfl, ?_⟩
  by_cases hlt : fu.balance < amt
  · rw [if_pos hlt] at h
    left
    have h1 := Option.some.inj h
    exact ⟨(congrArg Prod.fst h1).symm, (congrArg Prod.snd h1).symm, hlt⟩
  · rw [if_neg hlt] at h
    right
    have h1 := Option.some.inj h
    have hok : true = ok := congrArg Prod.fst h1
    have hdb := congrArg Prod.snd h1
    refine ⟨hok.symm, hlt, ?_, ?_, ?_⟩
    · exact (congrArg DB.users hdb).symm
    · exact (congrArg DB.transactions hdb).symm
    · exact (congrArg DB.payment_requests hdb).symm

theorem transfer_eq_true {db : DB} {f t : Nat} {amt : Int} {fu tu : UserRec}
    (ty : String) (d : Option String)
    (hf : findUser db f = some fu) (ht : findUser db t = some tu)
    (hge : ¬ fu.balance < amt) :
    transfer db f t amt ty d = some (true,
      { setBalance (setBalance db f (fu.balance - amt)) t
          (balanceOf (setBalance db f (fu.balance - amt)) t + amt) with
        transactions := db.transactions ++ [⟨some f, some t, amt, ty, d⟩] }) := by
  unfold transfer
  rw [hf, ht]
  dsimp only
  rw [if_neg hge]
  rfl

theorem transfer_eq_false {db : DB} {f t : Nat} {amt : Int} {fu : UserRec}
    (ty : String) (d : Option String)
    (hf : findUser db f = some fu) (ht : (findUser db t).isSome)
    (hlt : fu.balance < amt) :
    transfer db f t amt ty d = some (false, db) := by
  unfold transfer
  rcases htu : findUser db t with _ | tu
  · rw [htu] at ht
    simp at ht
  rw [hf]
  dsimp only
  rw [if_pos hlt]

theorem get_or_create_user_frame (sa : Option Int) (db : DB) (tid : Int)
    (un : Option String) :
    (get_or_create_user sa db tid un).2.transactions = db.transactions ∧
    (get_or_create_user sa db tid un).2.payment_requests = db.payment_requests := by
  unfold get_or_create_user
  rcases get_user_by_telegram_id db tid with _ | u
  · exact ⟨rfl, rfl⟩
  · rcases un with _ | un
    · exact ⟨rfl, rfl⟩
    · constructor
      · dsimp only
        split <;> rfl
      · dsimp only
        split <;> rfl

theorem get_valid_congr {db1 db2 : DB} (tok : String) (n : Nat)
    (h : db1.payment_requests = db2.payment_requests) :
    get_valid_payment_request db1 tok n = get_valid_payment_request db2 tok n := by
  unfold get_valid_payment_request
  rw [h]

theorem updBal_of_eq {uid : Nat} {b : Int} {u : UserRec} (h : u.id = uid) :
    updBal uid b u = { u with balance := b } := by
  unfold updBal
  rw [if_pos h]

theorem updBal_of_ne {uid : Nat} {b : Int} {u : UserRec} (h : u.id ≠ uid) :
    updBal uid b u = u := by
  unfold updBal
  rw [if_neg h]

theorem transfer_ids {db db' : DB} {f t : Nat} {amt : Int} {ty : String}
    {d : Option String} {ok : Bool}
    (h : transfer db f t amt ty d = some (ok, db')) :
    db'.users.map UserRec.id = db.users.map UserRec.id := by
  obtain ⟨fu, tu, hf, ht, hcase⟩ := transfer_inv h
  rcases hcase with ⟨_, hdb, _⟩ | ⟨_, _, husers, _, _⟩
  · rw [hdb]
  · calc db'.users.map UserRec.id
        = ((setBalance (setBalance db f (fu.balance - amt)) t
            (balanceOf (setBalance db f (fu.balance - amt)) t + amt)).users).map
              UserRec.id := by rw [husers]
      _ = ((setBalance db f (fu.balance - amt)).users).map UserRec.id :=
          setBalance_ids _ _ _
      _ = db.users.map UserRec.id := setBalance_ids _ _ _

theorem transfer_totalBalance {db db' : DB} {f t : Nat} {amt : Int}
    {ty : String} {d : Option String} {ok : Bool}
    (hN : (db.users.map UserRec.id).Nodup)
    (h : transfer db f t amt ty d = some (ok, db')) :
    totalBalance db' = totalBalance db := by
  obtain ⟨fu, tu, hf, ht, hcase⟩ := transfer_inv h
  rcases hcase with ⟨_, hdb, _⟩ | ⟨_, _, husers, _, _⟩
  · rw [hdb]
  · have hfu1 : findUser (setBalance db f (fu.balance - amt)) t
        = some (updBal f (fu.balance - amt) tu) := by
      rw [findUser_setBalance, ht]
      rfl
    have hN1 : ((setBalance db f (fu.balance - amt)).users.map UserRec.id).Nodup := by
      rw [setBalance_ids]
      exact hN
    have h1 : totalBalance (setBalance db f (fu.balance - amt))
        = totalBalance db - fu.balance + (fu.balance - amt) :=
      totalBalance_setBalance _ hN hf
    have hb1 : balanceOf (setBalance db f (fu.balance - amt)) t
        = (updBal f (fu.balance - amt) tu).balance := balanceOf_eq hfu1
    have h2 : totalBalance (setBalance (setBalance db f (fu.balance - amt)) t
          (balanceOf (setBalance db f (fu.balance - amt)) t + amt))
        = totalBalance (setBalance db f (fu.balance - amt))
          - (updBal f (fu.balance - amt) tu).balance
          + (balanceOf (setBalance db f (fu.balance - amt)) t + amt) :=
      totalBalance_setBalance _ hN1 hfu1
    have h3 : totalBalance db' = totalBalance (setBalance (setBalance db f
        (fu.balance - amt)) t (balanceOf (setBalance db f (fu.balance - amt)) t + amt)) := by
      unfold totalBalance
      rw [husers]
    rw [h3, h2, hb1, h1]
    omega

theorem applyTransfers_totalBalance :
    ∀ (ts : List (Nat × Nat × Int)) (db : DB),
      (db.users.map UserRec.id).Nodup →
      totalBalance (applyTransfers db ts) = totalBalance db ∧
      (applyTransfers db ts).users.map UserRec.id = db.users.map UserRec.id := by
  intro ts
  induction ts with
  | nil => exact fun db _ => ⟨rfl, rfl⟩
  | cons t ts ih =>
    intro db hN
    have hstep : applyTransfers db (t :: ts)
        = applyTransfers (match transfer db t.1 t.2.1 t.2.2 "transfer" none with
            | some (_, d') => d'
            | none => db) ts := rfl
    rcases htr : transfer db t.1 t.2.1 t.2.2 "transfer" none with _ | ⟨ok, db'⟩
    · simp only [htr] at hstep
      rw [hstep]
      exact ih db hN
    · simp only [htr] at hstep
      have hid := transfer_ids htr
      have htot := transfer_totalBalance hN htr
      have hN' : (db'.users.map UserRec.id).Nodup := by
        rw [hid]
        exact hN
      obtain ⟨ih1, ih2⟩ := ih db' hN'
      rw [hstep]
      exact ⟨ih1.trans htot, ih2.trans hid⟩

/-! ### Claim theorems -/

/-- C2: if the sender's stored balance is strictly below the amount, `transfer`
returns the insufficient-funds outcome (`False`) and the store it returns is
exactly the input store: both balances keep their prior values and no
transaction row is appended. -/
theorem C2_insufficient_funds_no_mutation (db : DB) (f t : Nat) (amt : Int)
    (fu : UserRec) (ty : String) (d : Option String)
    (hf : findUser db f = some fu) (ht : (findUser db t).isSome)
    (hlt : fu.balance < amt) :
    transfer db f t amt ty d = some (false, db) :=
  transfer_eq_false ty d hf ht hlt

/-- Witness for C2: `userB` (balance 10) attempting to send 11 fails and the
store is untouched. -/
theorem C2_insufficient_funds_no_mutation_witness :
    transfer baseDb 2 1 11 "transfer" none = some (false, baseDb) :=
  C2_insufficient_funds_no_mutation baseDb 2 1 11 userB "transfer" none
    (by decide) (by decide) (by decide)

/-- C3: a successful transfer of a positive amount between two distinct
accounts debits the sender by exactly the amount, credits the recipient by
exactly the amount (their sum is unchanged), and appends exactly one
transfer transaction row referencing both accounts; and the total of all
balances is invariant under any sequence of transfers. -/
theorem C3_transfer_conservation :
    (∀ (db : DB) (f t : Nat) (amt : Int) (fu tu : UserRec),
      findUser db f = some fu → findUser db t = some tu → f ≠ t →
      0 < amt → amt ≤ fu.balance →
      ∃ db', transfer db f t amt "transfer" none = some (true, db') ∧
        balanceOf db' f = fu.balance - amt ∧
        balanceOf db' t = tu.balance + amt ∧
        balanceOf db' f + balanceOf db' t = fu.balance + tu.balance ∧
        db'.transactions = db.transactions ++
          [⟨some f, some t, amt, "transfer", none⟩]) ∧
    (∀ (db : DB) (ts : List (Nat × Nat × Int)),
      (db.users.map UserRec.id).Nodup →
      totalBalance (applyTransfers db ts) = totalBalance db) := by
  constructor
  · intro db f t amt fu tu hf ht hne hpos hle
    have hge : ¬ fu.balance < amt := not_lt.mpr hle
    have hfid : fu.id = f := (findUser_some hf).1
    have htid : tu.id = t := (findUser_some ht).1
    have h1t : findUser (setBalance db f (fu.balance - amt)) t = some tu := by
      rw [findUser_setBalance, ht]
      have : updBal f (fu.balance - amt) tu = tu :=
        updBal_of_ne (by rw [htid]; exact fun hc => hne hc.symm)
      simp [this]
    have h1f : findUser (setBalance db f (fu.balance - amt)) f
        = some { fu with balance := fu.balance - amt } := by
      rw [findUser_setBalance, hf]
      have : updBal f (fu.balance - amt) fu = { fu with balance := fu.balance - amt } :=
        updBal_of_eq hfid
      simp [this]
    have hb1t : balanceOf (setBalance db f (fu.balance - amt)) t = tu.balance :=
      balanceOf_eq h1t
    have h2f : findUser (setBalance (setBalance db f (fu.balance - amt)) t
        (balanceOf (setBalance db f (fu.balance - amt)) t + amt)) f
        = some { fu with balance := fu.balance - amt } := by
      rw [findUser_setBalance, h1f]
      have : updBal t (balanceOf (setBalance db f (fu.balance - amt)) t + amt)
          { fu with balance := fu.balance - amt }
          = { fu with balance := fu.balance - amt } :=
        updBal_of_ne (by show fu.id ≠ t; rw [hfid]; exact hne)
      simp [this]
    have h2t : findUser (setBalance (setBalance db f (fu.balance - amt)) t
        (balanceOf (setBalance db f (fu.balance - amt)) t + amt)) t
        = some { tu with
            balance := balanceOf (setBalance db f (fu.balance - amt)) t + amt } := by
      rw [findUser_setBalance, h1t]
      have : updBal t (balanceOf (setBalance db f (fu.balance - amt)) t + amt) tu
          = { tu with balance := balanceOf (setBalance db f (fu.balance - amt)) t + amt } :=
        updBal_of_eq htid
      simp [this]
    have hbf : balanceOf (setBalance (setBalance db f (fu.balance - amt)) t
        (balanceOf (setBalance db f (fu.balance - amt)) t + amt)) f
        = fu.balance - amt := balanceOf_eq h2f
    have hbt : balanceOf (setBalance (setBalance db f (fu.balance - amt)) t
        (balanceOf (setBalance db f (fu.balance - amt)) t + amt)) t
        = tu.balance + amt := by
      rw [balanceOf_eq h2t]
      show balanceOf (setBalance db f (fu.balance - amt)) t + amt = tu.balance + amt
      rw [hb1t]
    refine ⟨_, transfer_eq_true "transfer" none hf ht hge, hbf, hbt, ?_, rfl⟩
    show balanceOf (setBalance (setBalance db f (fu.balance - amt)) t
        (balanceOf (setBalance db f (fu.balance - amt)) t + amt)) f
      + balanceOf (setBalance (setBalance db f (fu.balance - amt)) t
        (balanceOf (setBalance db f (fu.balance - amt)) t + amt)) t
      = fu.balance + tu.balance
    rw [hbf, hbt]
    omega
  · intro db ts hN
    exact (applyTransfers_totalBalance ts db hN).1

/-- Witness for C3: `userA` (balance 100) sends 30 to `userB` (balance 10). -/
theorem C3_transfer_conservation_witness :
    ∃ db', transfer baseDb 1 2 30 "transfer" none = some (true, db') ∧
      balanceOf db' 1 = userA.balance - 30 ∧
      balanceOf db' 2 = userB.balance + 30 ∧
      balanceOf db' 1 + balanceOf db' 2 = userA.balance + userB.balance ∧
      db'.transactions = baseDb.transactions ++
        [⟨some 1, some 2, 30, "transfer", none⟩] :=
  C3_transfer_conservation.1 baseDb 1 2 30 userA userB (by decide) (by decide)
    (by decide) (by decide) (by decide)

/-- C9: a self-transfer does not crash; when the positive amount is within
the balance it succeeds, leaves the balance unchanged, and still appends
exactly one transaction row; when the amount exceeds the balance it still
fails the balance check with insufficient funds. -/
theorem C9_self_transfer (db : DB) (uid : Nat) (amt : Int) (u : UserRec)
    (hu : findUser db uid = some u) (hpos : 0 < amt) :
    (amt ≤ u.balance →
      ∃ db', transfer db uid uid amt "transfer" none = some (true, db') ∧
        balanceOf db' uid = u.balance ∧
        db'.transactions = db.transactions ++
          [⟨some uid, some uid, amt, "transfer", none⟩]) ∧
    (u.balance < amt → transfer db uid uid amt "transfer" none = some (false, db)) := by
  constructor
  · intro hle
    have hge : ¬ u.balance < amt := not_lt.mpr hle
    have hid : u.id = uid := (findUser_some hu).1
    have h1 : findUser (setBalance db uid (u.balance - amt)) uid
        = some { u with balance := u.balance - amt } := by
      rw [findUser_setBalance, hu]
      simp [updBal_of_eq hid]
    have hb1 : balanceOf (setBalance db uid (u.balance - amt)) uid
        = u.balance - amt := balanceOf_eq h1
    have h2 : findUser (setBalance (setBalance db uid (u.balance - amt)) uid
        (balanceOf (setBalance db uid (u.balance - amt)) uid + amt)) uid
        = some { u with
            balance := balanceOf (setBalance db uid (u.balance - amt)) uid + amt } := by
      rw [findUser_setBalance, h1]
      have hid' : ({ u with balance := u.balance - amt } : UserRec).id = uid := hid
      simp [updBal_of_eq hid']
    refine ⟨_, transfer_eq_true "transfer" none hu hu hge, ?_, rfl⟩
    show balanceOf (setBalance (setBalance db uid (u.balance - amt)) uid
        (balanceOf (setBalance db uid (u.balance - amt)) uid + amt)) uid = u.balance
    rw [balanceOf_eq h2]
    show balanceOf (setBalance db uid (u.balance - amt)) uid + amt = u.balance
    rw [hb1]
    omega
  · intro hlt
    exact transfer_eq_false "transfer" none hu (by rw [hu]; rfl) hlt

/-- Witness for C9: `userC` (balance 50) self-transfers 20; the balance is
unchanged and one row is logged. -/
theorem C9_self_transfer_witness :
    ∃ db', transfer baseDb 3 3 20 "transfer" none = some (true, db') ∧
      balanceOf db' 3 = userC.balance ∧
      db'.transactions = baseDb.transactions ++
        [⟨some 3, some 3, 20, "transfer", none⟩] :=
  (C9_self_transfer baseDb 3 20 userC (by decide) (by decide)).1 (by decide)

/-- C4 (amended): `validate` returns a stored request exactly when one with
this token exists, `now ≤ expiresAt` — the stored comparison
`expires_at >= now` is inclusive at the boundary, not strict — and `used`
is false; every invalid case (unknown token, expired, already used)
collapses to the same `none` outcome; and a request created with window W
is redeemable just before `createdAt + W` and no longer just after. -/
theorem C4_validate_amended :
    (∀ (db : DB) (token : String) (now : Nat) (pr : PaymentRequestRec),
      get_valid_payment_request db token now = some pr →
      pr ∈ db.payment_requests ∧ pr.token = token ∧
        now ≤ pr.expires_at ∧ pr.used = false) ∧
    (∀ (db : DB) (token : String) (now : Nat),
      (∃ pr ∈ db.payment_requests,
        pr.token = token ∧ now ≤ pr.expires_at ∧ pr.used = false) →
      (get_valid_payment_request db token now).isSome) ∧
    (∀ (db : DB) (rid : Nat) (token : String) (amt : Option Int) (now W : Nat),
      0 < W → (∀ q ∈ db.payment_requests, q.token ≠ token) →
      (get_valid_payment_request (create_payment_request db rid token amt now W).2
        token (now + W - 1)).isSome ∧
      get_valid_payment_request (create_payment_request db rid token amt now W).2
        token (now + W + 1) = none) := by
  refine ⟨?_, ?_, ?_⟩
  · intro db token now pr h
    have hp := List.find?_some h
    have hm := List.mem_of_find?_eq_some h
    simp only [decide_eq_true_eq] at hp
    exact ⟨hm, hp.1, hp.2.1, hp.2.2⟩
  · rintro db token now ⟨pr, hm, h1, h2, h3⟩
    unfold get_valid_payment_request
    rw [List.find?_isSome]
    exact ⟨pr, hm, by simp [h1, h2, h3]⟩
  · intro db rid token amt now W hW hfresh
    constructor
    · unfold get_valid_payment_request create_payment_request
      dsimp only
      rw [List.find?_append]
      have hnone : db.payment_requests.find? (fun pr =>
          decide (pr.token = token ∧ now + W - 1 ≤ pr.expires_at ∧ pr.used = false))
          = none := by
        rw [List.find?_eq_none]
        intro q hq
        simp only [decide_eq_true_eq]
        rintro ⟨h1, _⟩
        exact hfresh q hq h1
      rw [hnone]
      simp [Nat.sub_le]
    · unfold get_valid_payment_request create_payment_request
      dsimp only
      rw [List.find?_eq_none]
      intro x hx
      rcases List.mem_append.mp hx with hold | hnew
      · simp only [decide_eq_true_eq]
        rintro ⟨h1, _⟩
        exact hfresh x hold h1
      · have hx' := List.mem_singleton.mp hnew
        subst hx'
        simp only [decide_eq_true_eq]
        rintro ⟨_, h2, _⟩
        omega

/-- Witness for C4: a request created at tick 50 with window 10 validates at
tick 59 and no longer validates at tick 61. -/
theorem C4_validate_amended_witness :
    (get_valid_payment_request (create_payment_request baseDb 1 "N" (some 20) 50 10).2
      "N" 59).isSome ∧
    get_valid_payment_request (create_payment_request baseDb 1 "N" (some 20) 50 10).2
      "N" 61 = none :=
  C4_validate_amended.2.2 baseDb 1 "N" (some 20) 50 10 (by decide) (by decide)

/-- Counterexample to C4 as stated: at `now = expiresAt = 100` the code still
returns the request, yet no stored request satisfies the claim's strict
`now < expiresAt` condition. -/
theorem C4_validate_counterexample :
    (get_valid_payment_request dbBoundary "t" 100).isSome = true ∧
    ¬ ∃ pr ∈ dbBoundary.payment_requests,
        pr.token = "t" ∧ 100 < pr.expires_at ∧ pr.used = false := by
  decide

/-- C5: in the redemption flow, when the transfer reports insufficient funds
the request table is left exactly as it was — the request is not marked
used and every later validation of the token behaves as before the attempt
— and when the transfer succeeds the request row with this token is marked
`used = true`. -/
theorem C5_redeem_mark_used (sa : Option Int) (db : DB) (tg : Int)
    (un : Option String) (tok : String) (now : Nat) :
    ((on_pay_confirm sa db tg un tok now).1 = RedeemOutcome.insufficientFunds →
      (on_pay_confirm sa db tg un tok now).2.payment_requests = db.payment_requests ∧
      ∀ n2, get_valid_payment_request (on_pay_confirm sa db tg un tok now).2 tok n2
            = get_valid_payment_request db tok n2) ∧
    (∀ a, (on_pay_confirm sa db tg un tok now).1 = RedeemOutcome.success a →
      ∃ pr ∈ (on_pay_confirm sa db tg un tok now).2.payment_requests,
        pr.token = tok ∧ pr.used = true) := by
  unfold on_pay_confirm
  rcases hv : redeemValidate db tok now with _ | ⟨pr, amt⟩
  · exact ⟨fun h => (nomatch h), fun a h => (nomatch h)⟩
  · unfold redeemCommit
    dsimp only
    rcases hr : findUser (get_or_create_user sa db tg un).2 pr.requester_id
        with _ | recipient
    · exact ⟨fun h => (nomatch h), fun a h => (nomatch h)⟩
    · dsimp only
      rcases ht : transfer (get_or_create_user sa db tg un).2
          (get_or_create_user sa db tg un).1.id recipient.id amt "transfer" none
          with _ | ⟨b, db2⟩
      · exact ⟨fun h => (nomatch h), fun a h => (nomatch h)⟩
      · cases b
        · -- insufficient funds: the store is exactly the pre-attempt store
          dsimp only
          constructor
          · intro _
            obtain ⟨fu, tu, _, _, hcase⟩ := transfer_inv ht
            rcases hcase with ⟨_, hdb, _⟩ | ⟨hfalse, _⟩
            · have hfr := get_or_create_user_frame sa db tg un
              have hprs : db2.payment_requests = db.payment_requests := by
                rw [hdb]
                exact hfr.2
              exact ⟨hprs, fun n2 => get_valid_congr tok n2 hprs⟩
            · exact nomatch hfalse
          · intro a h
            exact nomatch h
        · -- success: the request row with this token is marked used
          dsimp only
          constructor
          · intro h
            exact nomatch h
          · intro a _
            -- unpack the validation phase
            unfold redeemValidate at hv
            rcases hg : get_valid_payment_request db tok now with _ | pr0 <;>
              rw [hg] at hv <;> dsimp only at hv
            · exact nomatch hv
            rcases ha : pr0.amount with _ | a0 <;> rw [ha] at hv <;> dsimp only at hv
            · exact nomatch hv
            have hpr : pr0 = pr := congrArg Prod.fst (Option.some.inj hv)
            have hmem : pr ∈ db.payment_requests :=
              hpr ▸ List.mem_of_find?_eq_some hg
            have htok : pr.token = tok := by
              have := List.find?_some hg
              simp only [decide_eq_true_eq] at this
              exact hpr ▸ this.1
            obtain ⟨fu, tu, _, _, hcase⟩ := transfer_inv ht
            rcases hcase with ⟨hfalse, _⟩ | ⟨_, _, _, _, hprs⟩
            · exact nomatch hfalse
            have hfr := get_or_create_user_frame sa db tg un
            have hdb2 : db2.payment_requests = db.payment_requests :=
              hprs.trans hfr.2
            refine ⟨{ pr with used := true }, ?_, htok, rfl⟩
            show { pr with used := true } ∈
              (mark_payment_request_used db2 pr.id).payment_requests
            unfold mark_payment_request_used
            dsimp only
            rw [hdb2]
            have := List.mem_map_of_mem
              (fun q : PaymentRequestRec =>
                if q.id = pr.id then { q with used := true } else q) hmem
            simpa using this

/-- Witness for C5: `userC` redeems the open request `reqT`; afterwards the
stored request with token `"T"` is marked used. -/
theorem C5_redeem_mark_used_witness :
    ∃ pr ∈ (on_pay_confirm none baseDb 300 none "T" 10).2.payment_requests,
      pr.token = "T" ∧ pr.used = true :=
  (C5_redeem_mark_used none baseDb 300 none "T" 10).2 30 (by decide)

/-- Full characterisation of `admin_adjust_balance` on an existing target:
it always succeeds, writes the credited/debited balance, and appends
exactly the one transaction row built by the source. -/
theorem admin_adjust_spec (db : DB) (admin : UserRec) (targetId : Nat)
    (amt : Int) (isCredit : Bool) (descr : Option String) (t : UserRec)
    (ht : findUser db targetId = some t) :
    ∃ db', admin_adjust_balance db admin targetId amt isCredit descr = some db' ∧
      balanceOf db' targetId = (if isCredit then t.balance + amt else t.balance - amt) ∧
      db'.transactions = db.transactions ++
        [⟨none, some targetId, amt,
          (if isCredit then "admin_credit" else "admin_debit"),
          some (adminNote admin descr)⟩] := by
  have htid : t.id = targetId := (findUser_some ht).1
  have h1 : findUser (setBalance db targetId
      (if isCredit then t.balance + amt else t.balance - amt)) targetId
      = some { t with
          balance := if isCredit then t.balance + amt else t.balance - amt } := by
    rw [findUser_setBalance, ht]
    simp [updBal_of_eq htid]
  have heq : admin_adjust_balance db admin targetId amt isCredit descr
      = some { setBalance db targetId
                 (if isCredit then t.balance + amt else t.balance - amt) with
               transactions := db.transactions ++
                 [⟨none, some targetId, amt,
                   (if isCredit then "admin_credit" else "admin_debit"),
                   some (adminNote admin descr)⟩] } := by
    unfold admin_adjust_balance
    rw [ht]
  exact ⟨_, heq, balanceOf_eq h1, rfl⟩

/-- Counterexample to C6 as stated: `userB`, whose `is_admin` flag is false,
runs an admin debit of 5 against `userA`; far from failing unauthorized with
no mutation, the call succeeds, the balance drops from 100 to 95, and a
transaction row is appended. -/
theorem C6_adjust_counterexample :
    userB.is_admin = false ∧
    (c6_result.map fun d => balanceOf d 1) = some 95 ∧
    balanceOf baseDb 1 = 100 ∧
    (c6_result.map fun d => d.transactions.length) = some 1 ∧
    baseDb.transactions.length = 0 := by
  decide

/-- C6 (amended): `admin_adjust_balance` performs no authorization check —
for every caller, even one whose `is_admin` flag is false, the adjustment
is applied to the target's balance and one transaction row is appended;
the core has no unauthorized outcome. -/
theorem C6_adjust_no_auth_check (db : DB) (admin : UserRec) (targetId : Nat)
    (amt : Int) (isCredit : Bool) (descr : Option String) (t : UserRec)
    (hadmin : admin.is_admin = false)
    (ht : findUser db targetId = some t) :
    ∃ db', admin_adjust_balance db admin targetId amt isCredit descr = some db' ∧
      balanceOf db' targetId = (if isCredit then t.balance + amt else t.balance - amt) ∧
      db'.transactions.length = db.transactions.length + 1 := by
  obtain ⟨db', h1, h2, h3⟩ := admin_adjust_spec db admin targetId amt isCredit descr t ht
  refine ⟨db', h1, h2, ?_⟩
  rw [h3]
  simp

/-- Witness for C6 (amended): the non-admin `userB` debits `userA` by 5 and
the mutation goes through. -/
theorem C6_adjust_no_auth_check_witness :
    ∃ db', admin_adjust_balance baseDb userB 1 5 false none = some db' ∧
      balanceOf db' 1 = (if (false : Bool) then userA.balance + 5 else userA.balance - 5) ∧
      db'.transactions.length = baseDb.transactions.length + 1 :=
  C6_adjust_no_auth_check baseDb userB 1 5 false none userA (by decide) (by decide)

/-- Counterexample to C7 as stated: an admin debit appends a row whose `to`
reference is present (it references the target), not absent as claimed. -/
theorem C7_adjust_record_counterexample :
    (c7_result.map fun d => d.transactions.map TransactionRec.to_user_id)
      = some [some 1] ∧
    (c7_result.map fun d => d.transactions.map TransactionRec.type)
      = some ["admin_debit"] := by
  decide

/-- C7 (amended): an admin adjustment with positive amount changes the
target's balance by exactly `+amount` (credit) or `-amount` (debit)
unconditionally, and appends exactly one row whose kind is
`admin_credit`/`admin_debit` accordingly, whose `from` reference is absent
for both credits and debits, and whose `to` reference is the target for
both; the admin's identity appears only in the note, never as a ledger
party. -/
theorem C7_adjust_record (db : DB) (admin : UserRec) (targetId : Nat)
    (amt : Int) (isCredit : Bool) (descr : Option String) (t : UserRec)
    (ht : findUser db targetId = some t) (hpos : 0 < amt) :
    ∃ db', admin_adjust_balance db admin targetId amt isCredit descr = some db' ∧
      balanceOf db' targetId = (if isCredit then t.balance + amt else t.balance - amt) ∧
      db'.transactions = db.transactions ++
        [⟨none, some targetId, amt,
          (if isCredit then "admin_credit" else "admin_debit"),
          some (adminNote admin descr)⟩] ∧
      (admin.id ≠ targetId →
        ∀ tx ∈ db'.transactions, tx ∉ db.transactions →
          tx.from_user_id ≠ some admin.id ∧ tx.to_user_id ≠ some admin.id) := by
  obtain ⟨db', h1, h2, h3⟩ := admin_adjust_spec db admin targetId amt isCredit descr t ht
  refine ⟨db', h1, h2, h3, ?_⟩
  intro hne tx htx hnot
  rw [h3] at htx
  rcases List.mem_append.mp htx with hin | hin
  · exact absurd hin hnot
  · have hx := List.mem_singleton.mp hin
    subst hx
    refine ⟨by simp, ?_⟩
    show some targetId ≠ some admin.id
    intro hc
    exact hne (Option.some.inj hc).symm

/-- Witness for C7 (amended): `userC` debits `userA` by 5; the appended row
has `from` absent, `to` referencing the target, kind `admin_debit`, and the
caller appears only in the note. -/
theorem C7_adjust_record_witness :
    ∃ db', admin_adjust_balance baseDb userC 1 5 false none = some db' ∧
      balanceOf db' 1 = (if (false : Bool) then userA.balance + 5 else userA.balance - 5) ∧
      db'.transactions = baseDb.transactions ++
        [⟨none, some 1, 5,
          (if (false : Bool) then "admin_credit" else "admin_debit"),
          some (adminNote userC none)⟩] ∧
      (userC.id ≠ 1 →
        ∀ tx ∈ db'.transactions, tx ∉ baseDb.transactions →
          tx.from_user_id ≠ some userC.id ∧ tx.to_user_id ≠ some userC.id) :=
  C7_adjust_record baseDb userC 1 5 false none userA (by decide) (by decide)

/-- Counterexample to C8 as stated: the core accepts the negative amount
`-1`: the transfer from `userB` (balance 10) to `userC` succeeds, moves
money backwards (10 → 11 and 50 → 49), and appends a row — it is not
rejected and state does not stay unchanged. -/
theorem C8_negative_amount_counterexample :
    (c8_result.map Prod.fst) = some true ∧
    (c8_result.map fun r => balanceOf r.2 2) = some 11 ∧
    (c8_result.map fun r => balanceOf r.2 3) = some 49 ∧
    (c8_result.map fun r => r.2.transactions.length) = some 1 := by
  decide

/-- C8 (amended): the core applies no amount-sign validation — non-positive
amounts are screened only by the front-end input handlers.  `transfer`
processes a zero or negative amount normally, subject only to the balance
comparison, and `admin_adjust_balance` processes it unconditionally; both
then mutate state and append a row. -/
theorem C8_core_no_amount_validation :
    (∀ (db : DB) (f t : Nat) (amt : Int) (fu tu : UserRec) (ty : String)
      (d : Option String),
      findUser db f = some fu → findUser db t = some tu → amt ≤ 0 →
      ¬ fu.balance < amt →
      ∃ db', transfer db f t amt ty d = some (true, db') ∧
        db'.transactions.length = db.transactions.length + 1) ∧
    (∀ (db : DB) (admin : UserRec) (targetId : Nat) (amt : Int)
      (isCredit : Bool) (descr : Option String) (t : UserRec),
      findUser db targetId = some t → amt ≤ 0 →
      ∃ db', admin_adjust_balance db admin targetId amt isCredit descr = some db' ∧
        balanceOf db' targetId = (if isCredit then t.balance + amt else t.balance - amt) ∧
        db'.transactions.length = db.transactions.length + 1) := by
  constructor
  · intro db f t amt fu tu ty d hf ht hle hge
    refine ⟨_, transfer_eq_true ty d hf ht hge, ?_⟩
    show (db.transactions ++ [(⟨some f, some t, amt, ty, d⟩ : TransactionRec)]).length
      = db.transactions.length + 1
    simp
  · intro db admin targetId amt isCredit descr t ht hle
    obtain ⟨db', h1, h2, h3⟩ := admin_adjust_spec db admin targetId amt isCredit descr t ht
    refine ⟨db', h1, h2, ?_⟩
    rw [h3]
    simp

/-- Witness for C8 (amended): a zero-amount transfer goes through and logs a
row, and an admin adjustment of `-3` also goes through. -/
theorem C8_core_no_amount_validation_witness :
    (∃ db', transfer baseDb 1 2 0 "transfer" none = some (true, db') ∧
      db'.transactions.length = baseDb.transactions.length + 1) ∧
    (∃ db', admin_adjust_balance baseDb userB 1 (-3) true none = some db' ∧
      balanceOf db' 1 = (if (true : Bool) then userA.balance + (-3) else userA.balance - (-3)) ∧
      db'.transactions.length = baseDb.transactions.length + 1) :=
  ⟨C8_core_no_amount_validation.1 baseDb 1 2 0 userA userB "transfer" none
      (by decide) (by decide) (by decide) (by decide),
   C8_core_no_amount_validation.2 baseDb userB 1 (-3) true none userA
      (by decide) (by decide)⟩

/-- C10: on an existing account, `get_or_create_user` returns it with every
field except possibly `username` unchanged — balance, admin flag,
registration, soft-delete flag, telegram id, nickname and cmap id are all
preserved, the other tables are untouched, the user table changes in the
`username` column at most, and when the new username is null or equal to
the stored one nothing changes at all. -/
theorem C10_get_or_create_frame (sa : Option Int) (db : DB) (tid : Int)
    (un : Option String) (u : UserRec)
    (hu : get_user_by_telegram_id db tid = some u) :
    ((get_or_create_user sa db tid un).1.id = u.id ∧
     (get_or_create_user sa db tid un).1.telegram_id = u.telegram_id ∧
     (get_or_create_user sa db tid un).1.balance = u.balance ∧
     (get_or_create_user sa db tid un).1.is_admin = u.is_admin ∧
     (get_or_create_user sa db tid un).1.is_registered = u.is_registered ∧
     (get_or_create_user sa db tid un).1.is_deleted = u.is_deleted ∧
     (get_or_create_user sa db tid un).1.game_nickname = u.game_nickname ∧
     (get_or_create_user sa db tid un).1.cmap_id = u.cmap_id) ∧
    ((get_or_create_user sa db tid un).2.users.map stripUsername
       = db.users.map stripUsername ∧
     (get_or_create_user sa db tid un).2.transactions = db.transactions ∧
     (get_or_create_user sa db tid un).2.payment_requests = db.payment_requests) ∧
    ((un = none ∨ un = u.username) → get_or_create_user sa db tid un = (u, db)) := by
  unfold get_or_create_user
  rw [hu]
  rcases un with _ | un'
  · exact ⟨⟨rfl, rfl, rfl, rfl, rfl, rfl, rfl, rfl⟩, ⟨rfl, rfl, rfl⟩, fun _ => rfl⟩
  · dsimp only
    by_cases hc : u.username ≠ some un'
    · rw [if_pos hc]
      refine ⟨⟨rfl, rfl, rfl, rfl, rfl, rfl, rfl, rfl⟩, ⟨?_, rfl, rfl⟩, ?_⟩
      · show (db.users.map fun v =>
            if v.telegram_id = tid then { v with username := some un' } else v).map
              stripUsername = db.users.map stripUsername
        rw [List.map_map]
        refine List.map_congr_left fun v _ => ?_
        show stripUsername (if v.telegram_id = tid
            then { v with username := some un' } else v) = stripUsername v
        split <;> rfl
      · rintro (h | h)
        · exact (nomatch h)
        · exact absurd h.symm hc
    · rw [if_neg hc]
      exact ⟨⟨rfl, rfl, rfl, rfl, rfl, rfl, rfl, rfl⟩, ⟨rfl, rfl, rfl⟩, fun _ => rfl⟩

/-- Witness for C10: refreshing `userA`'s username to a different value
keeps every other field and both other tables intact. -/
theorem C10_get_or_create_frame_witness :
    ((get_or_create_user none baseDb 100 (some "al2")).1.id = userA.id ∧
     (get_or_create_user none baseDb 100 (some "al2")).1.telegram_id = userA.telegram_id ∧
     (get_or_create_user none baseDb 100 (some "al2")).1.balance = userA.balance ∧
     (get_or_create_user none baseDb 100 (some "al2")).1.is_admin = userA.is_admin ∧
     (get_or_create_user none baseDb 100 (some "al2")).1.is_registered = userA.is_registered ∧
     (get_or_create_user none baseDb 100 (some "al2")).1.is_deleted = userA.is_deleted ∧
     (get_or_create_user none baseDb 100 (some "al2")).1.game_nickname = userA.game_nickname ∧
     (get_or_create_user none baseDb 100 (some "al2")).1.cmap_id = userA.cmap_id) ∧
    ((get_or_create_user none baseDb 100 (some "al2")).2.users.map stripUsername
       = baseDb.users.map stripUsername ∧
     (get_or_create_user none baseDb 100 (some "al2")).2.transactions = baseDb.transactions ∧
     (get_or_create_user none baseDb 100 (some "al2")).2.payment_requests
       = baseDb.payment_requests) ∧
    ((some "al2" = none ∨ some "al2" = userA.username) →
      get_or_create_user none baseDb 100 (some "al2") = (userA, baseDb)) :=
  C10_get_or_create_frame none baseDb 100 (some "al2") userA (by decide)

/-- C1: the redemption flow of `on_pay_confirm` carries no conditional-update
guard on `used`, so when two attempts on the same token both pass
validation against the pre-commit store before either commits, BOTH
succeed: each performs the transfer, and the requester is credited twice —
contradicting the claim that exactly one of N such attempts succeeds and
the rest fail with the invalid outcome. -/
theorem C1_double_redemption_race :
    redeemValidate dbRace "T" 10 = some (reqT, 30) ∧
    (redeemCommit none dbRace reqT 30 300 none).1 = RedeemOutcome.success 30 ∧
    (redeemCommit none ((redeemCommit none dbRace reqT 30 300 none).2)
      reqT 30 400 none).1 = RedeemOutcome.success 30 ∧
    balanceOf ((redeemCommit none ((redeemCommit none dbRace reqT 30 300 none).2)
      reqT 30 400 none).2) 1 = userA.balance + 30 + 30 := by
  decide

end Cmp1
